import Mathlib

/-!
Verification of the transcription web service in src/main.py against its
specification. The Flask handlers are shallowly embedded as pure Lean
functions over explicit request data; the cloud collaborators (object store
and compute API) are represented by an oracle of call results, and each
handler additionally returns the trace of external calls it performed, in
order.
-/

namespace TranscribeVM

/-- Single-quote character, used in the success message of the submission
endpoint (written via a character code to keep the source ASCII-simple). -/
def SQ : String := ⟨[Char.ofNat 39]⟩

/-- Characters kept unchanged by the two sanitizing regular expressions in
main.py, both of which use the class A-Za-z0-9 underscore dot hyphen
(one in werkzeug.utils.secure_filename, one in the URL slug substitution). -/
def asciiWordChar (c : Char) : Bool :=
  c.isAlpha || c.isDigit || c = '_' || c = '.' || c = '-'

/-- The ASCII characters on which Python str.split() with no argument
splits (whitespace in the sense of Py_UNICODE_ISSPACE, restricted to the
ASCII range, which is all that can remain after the ascii-ignore encode
step of secure_filename). -/
def isPySpace (c : Char) : Bool :=
  c = ' ' || c = '\t' || c = '\n' || c = '\x0b' || c = '\x0c' || c = '\r' ||
  c = '\x1c' || c = '\x1d' || c = '\x1e' || c = '\x1f'

/-- Model of Python str.split() with no argument: splits on runs of
whitespace and produces no empty words. The accumulator holds the current
word reversed. -/
def splitWsAux : List Char → List Char → List (List Char)
  | [], acc => if acc.isEmpty then [] else [acc.reverse]
  | c :: rest, acc =>
    if isPySpace c then
      if acc.isEmpty then splitWsAux rest [] else acc.reverse :: splitWsAux rest []
    else splitWsAux rest (c :: acc)

/-- Model of Python "_".join(words). -/
def joinUnd : List (List Char) → List Char
  | [] => []
  | [w] => w
  | w :: ws => w ++ '_' :: joinUnd ws

/-- The character set stripped from both ends by .strip("._") in
secure_filename. -/
def dotUnd (c : Char) : Bool := c = '.' || c = '_'

/-- Model of Python s.strip("._"): remove leading and trailing characters
belonging to the set. -/
def pyStrip (l : List Char) : List Char :=
  ((l.dropWhile dotUnd).reverse.dropWhile dotUnd).reverse

/-- Model of werkzeug.utils.secure_filename on a POSIX system, at the level
of character lists. Steps, following the werkzeug source: NFKD-normalize
and encode("ascii", "ignore") (on ASCII input the normalization is the
identity, so this is modelled as dropping non-ASCII characters), replace
os.sep (the slash) by a space, split on whitespace and join with
underscores, delete every character outside A-Za-z0-9 underscore dot
hyphen, and strip leading and trailing dots and underscores. The Windows
device-file special case does not apply (os.name is not nt). -/
def secureFilenameL (l : List Char) : List Char :=
  pyStrip ((joinUnd (splitWsAux
    ((l.filter (fun c => c.toNat < 128)).map (fun c => if c = '/' then ' ' else c)) [])).filter
    asciiWordChar)

/-- werkzeug.utils.secure_filename as used by main.py. -/
def secure_filename (s : String) : String := ⟨secureFilenameL s.data⟩

/-- The extension allow-list ALLOWED_EXTENSIONS of main.py (a Python set;
only membership is used, so a list model suffices). -/
def ALLOWED_EXTENSIONS : List String :=
  ["mp4", "mp3", "wav", "flac", "aac", "ogg", "webm", "m4a"]

/-- The characters after the last dot: Python filename.rsplit(".", 1)[1]
when a dot is present. -/
def extAfterDotL (l : List Char) : List Char :=
  (l.reverse.takeWhile (fun c => c != '.')).reverse

/-- Model of allowed_file in main.py: a dot must occur in the name and the
lowercased part after the last dot must be an allowed extension. -/
def allowed_file (filename : String) : Bool :=
  filename.data.contains '.' &&
    ALLOWED_EXTENSIONS.contains (⟨(extAfterDotL filename.data).map Char.toLower⟩)

/-- The part before the last dot, or the whole list when no dot occurs:
Python s.rsplit(".", 1)[0]. -/
def rsplitHeadL (l : List Char) : List Char :=
  if l.contains '.' then ((l.reverse.dropWhile (fun c => c != '.')).tail).reverse else l

/-- String form of rsplitHeadL, used to strip a filename extension. -/
def stripExtS (s : String) : String := ⟨rsplitHeadL s.data⟩

/-- Model of re.sub(r"https?://", "", url): scan left to right, removing
each non-overlapping match; the optional s is greedy, so https:// is
preferred at any position where both alternatives match. -/
def stripHttpL : List Char → List Char
  | 'h' :: 't' :: 't' :: 'p' :: 's' :: ':' :: '/' :: '/' :: rest => stripHttpL rest
  | 'h' :: 't' :: 't' :: 'p' :: ':' :: '/' :: '/' :: rest => stripHttpL rest
  | c :: rest => c :: stripHttpL rest
  | [] => []

/-- The base name derived from a submitted URL in main.py: strip http(s)
scheme occurrences, replace every character outside the word class by an
underscore (re.sub with the class above), and truncate to 50 characters. -/
def urlBaseName (u : String) : String :=
  ⟨((stripHttpL u.data).map (fun c => if asciiWordChar c then c else '_')).take 50⟩

/-- Wall-clock instant as used by datetime.now(); only the fields consumed
by the strftime format of main.py are modelled. -/
structure Datetime where
  year : Nat
  month : Nat
  day : Nat
  hour : Nat
  minute : Nat
  second : Nat
deriving DecidableEq

/-- Two-digit zero-padded decimal rendering; exact model of the strftime
fields %m %d %H %M %S for the value ranges datetime guarantees (below
100). -/
def pad2 (n : Nat) : List Char := [Nat.digitChar (n / 10 % 10), Nat.digitChar (n % 10)]

/-- Four-digit zero-padded decimal rendering; exact model of strftime %Y
for years between 1000 and 9999. -/
def pad4 (n : Nat) : List Char :=
  [Nat.digitChar (n / 1000 % 10), Nat.digitChar (n / 100 % 10),
   Nat.digitChar (n / 10 % 10), Nat.digitChar (n % 10)]

/-- Model of datetime.strftime with format %Y%m%d-%H%M%S. -/
def strftimeYmdHMS (t : Datetime) : String :=
  ⟨pad4 t.year ++ pad2 t.month ++ pad2 t.day ++
    '-' :: (pad2 t.hour ++ pad2 t.minute ++ pad2 t.second)⟩

/-- An uploaded file part as the handler sees it: the client-supplied
filename, the size of the payload in bytes, and the declared content
type. The handler in main.py never reads the size. -/
structure File where
  filename : String
  size : Nat
  contentType : String
deriving DecidableEq

/-- External calls the submission handler can make, recorded in order. -/
inductive Effect where
  | upload (path : String) (contentType : String)
  | getMeta
  | setMeta (fingerprint : String) (items : List (String × String))
  | start
deriving DecidableEq

/-- Decidable equality of call outcomes, needed to evaluate the model on
concrete inputs. -/
instance instDecEqExcept {α : Type} {β : Type} [DecidableEq α] [DecidableEq β] :
    DecidableEq (Except α β) := fun x y =>
  match x, y with
  | Except.error a, Except.error b =>
    if h : a = b then isTrue (by rw [h]) else isFalse (by simp [h])
  | Except.error _, Except.ok _ => isFalse (by simp)
  | Except.ok _, Except.error _ => isFalse (by simp)
  | Except.ok a, Except.ok b =>
    if h : a = b then isTrue (by rw [h]) else isFalse (by simp [h])

/-- Oracle for the outcomes of the external calls: the object-store upload,
the compute metadata fetch (returning the fingerprint), the metadata
overwrite, and the instance start. An error value models the call raising
an exception with that text. -/
structure CloudEnv where
  uploadRes : Except String Unit
  getMetaRes : Except String String
  setMetaRes : Except String Unit
  startRes : Except String Unit
deriving DecidableEq

/-- Result of the submission handler: the trace of external calls and
either a Flask (status, body) response or an uncaught exception. -/
structure TResult where
  effects : List Effect
  response : Except String (Nat × String)
deriving DecidableEq

/-- The bucket constant GCS_BUCKET_NAME of main.py. -/
def GCS_BUCKET_NAME : String := "shaw-transcripts-20260207"

/-- Truthiness of request.form.get("url"): present and non-empty. -/
def urlTruthy : Option String → Bool
  | some u => u != ""
  | none => false

/-- Truthiness of request.files.get("file"): a werkzeug FileStorage is
truthy exactly when its filename is non-empty. -/
def fileTruthy : Option File → Bool
  | some f => f.filename != ""
  | none => false

/-- Placeholder used to read fields of an optional file in a branch where
the file is known to be present. -/
def defaultFile : File := { filename := "", size := 0, contentType := "" }

/-- source_base_name as computed in main.py: stripped sanitized filename
for a (truthy) file, slug of the URL for a (truthy) URL, untitled
otherwise. -/
def sourceBaseName (url : Option String) (file : Option File) : String :=
  if fileTruthy file then stripExtS (secure_filename (file.getD defaultFile).filename)
  else if urlTruthy url then urlBaseName (url.getD "")
  else "untitled"

/-- transcription_id as computed in main.py. -/
def transcriptionId (url : Option String) (file : Option File) (now : Datetime) : String :=
  sourceBaseName url file ++ "_" ++ strftimeYmdHMS now

/-- gcs_file_path as computed in main.py for a file submission. -/
def gcsFilePath (url : Option String) (file : Option File) (now : Datetime) : String :=
  transcriptionId url file now ++ "/" ++ secure_filename (file.getD defaultFile).filename

/-- input_source_for_vm as computed in main.py: the uploaded object URI for
a file submission, the raw URL for a URL submission, empty otherwise. -/
def input_source_for_vm (url : Option String) (file : Option File) (now : Datetime) : String :=
  if fileTruthy file then "gs://" ++ GCS_BUCKET_NAME ++ "/" ++ gcsFilePath url file now
  else if urlTruthy url then url.getD ""
  else ""

/-- The metadata items written to the worker VM, in source order. -/
def metaItems (inputSrc tid hfTok : String) : List (String × String) :=
  [("gcs-input-path", inputSrc), ("gcs-output-bucket", GCS_BUCKET_NAME),
   ("huggingface-token", hfTok), ("transcription-id", tid)]

/-- The try block of the transcribe handler (lines 266 to 299 of main.py):
fetch metadata, overwrite it with the job items using the fetched
fingerprint, start the instance; any exception is caught and surfaced as a
500 whose body carries the exception text. -/
def tryBlock (env : CloudEnv) (hfTok inputSrc tid : String) :
    List Effect × Except String (Nat × String) :=
  match env.getMetaRes with
  | Except.error e => ([Effect.getMeta], Except.ok (500, "Failed to initiate transcription: " ++ e))
  | Except.ok fp =>
    match env.setMetaRes with
    | Except.error e =>
        ([Effect.getMeta, Effect.setMeta fp (metaItems inputSrc tid hfTok)],
         Except.ok (500, "Failed to initiate transcription: " ++ e))
    | Except.ok _ =>
      match env.startRes with
      | Except.error e =>
          ([Effect.getMeta, Effect.setMeta fp (metaItems inputSrc tid hfTok), Effect.start],
           Except.ok (500, "Failed to initiate transcription: " ++ e))
      | Except.ok _ =>
          ([Effect.getMeta, Effect.setMeta fp (metaItems inputSrc tid hfTok), Effect.start],
           Except.ok (200, "Transcription job " ++ SQ ++ tid ++ SQ ++
             " initiated. The VM is spinning up."))

/-- The POST /transcribe handler of main.py. Rejects when neither field is
truthy; for a truthy file, rejects disallowed extensions and otherwise
uploads the file (an upload exception escapes the handler, since the
upload sits outside the try block) and runs the try block with the object
URI; for a URL-only request, runs the try block with the raw URL. -/
def transcribe (url : Option String) (file : Option File) (now : Datetime)
    (env : CloudEnv) (hfTok : String) : TResult :=
  if !urlTruthy url && !fileTruthy file then
    { effects := [], response := Except.ok (400, "No URL or file provided") }
  else if fileTruthy file then
    if !allowed_file (file.getD defaultFile).filename then
      { effects := [], response := Except.ok (400, "Invalid file type") }
    else
      match env.uploadRes with
      | Except.error e => { effects := [], response := Except.error e }
      | Except.ok _ =>
        let r := tryBlock env hfTok (input_source_for_vm url file now) (transcriptionId url file now)
        { effects := Effect.upload (gcsFilePath url file now) (file.getD defaultFile).contentType :: r.1,
          response := r.2 }
  else
    let r := tryBlock env hfTok (input_source_for_vm url file now) (transcriptionId url file now)
    { effects := r.1, response := r.2 }

/-- Predicate picking out metadata-set calls in a trace. -/
def isSetMeta : Effect → Bool
  | Effect.setMeta _ _ => true
  | _ => false

/-- Predicate picking out instance-start calls in a trace. -/
def isStart : Effect → Bool
  | Effect.start => true
  | _ => false

/-- Number of metadata-set calls in a trace. -/
def countSetMeta (l : List Effect) : Nat := l.countP isSetMeta

/-- Number of instance-start calls in a trace. -/
def countStart (l : List Effect) : Nat := l.countP isStart

/-- Locate the first scheme separator of a URL and return what follows it;
helper for the reading of the claim C3 wording, where the base name is the
URL with its scheme stripped. -/
def afterSchemeSep : List Char → Option (List Char)
  | ':' :: '/' :: '/' :: rest => some rest
  | _ :: rest => afterSchemeSep rest
  | [] => none

/-- The C3 claim wording, formalized as stated: the URL with its scheme
stripped, every non-alphanumeric character replaced by an underscore, and
the result truncated to at most 50 characters. -/
def claimUrlBaseName (u : String) : String :=
  ⟨(((afterSchemeSep u.data).getD u.data).map
      (fun c => if c.isAlpha || c.isDigit then c else '_')).take 50⟩

/-- Removal of every occurrence of http:// or https:// in a single left to
right scan, preferring the longer match, stated via an explicit match
against the two literal patterns; used by the amended form of C3. -/
def removeHttpOcc (l : List Char) : List Char :=
  match l with
  | [] => []
  | c :: rest =>
    if List.isPrefixOf (['h', 't', 't', 'p', 's', ':', '/', '/']) (c :: rest) then
      removeHttpOcc ((c :: rest).drop 8)
    else if List.isPrefixOf (['h', 't', 't', 'p', ':', '/', '/']) (c :: rest) then
      removeHttpOcc ((c :: rest).drop 7)
    else c :: removeHttpOcc rest
termination_by l.length
decreasing_by
  all_goals (simp only [List.length_drop, List.length_cons]; omega)

/-- The amended C3 wording: the URL with every occurrence of http:// or
https:// removed in a left to right scan, every character other than an
ASCII letter, digit, underscore, dot or hyphen replaced by an underscore,
and the result truncated to at most 50 characters. -/
def amendedUrlBaseName (u : String) : String :=
  ⟨((removeHttpOcc u.data).map (fun c =>
      if c.isAlpha || c.isDigit || c = '_' || c = '.' || c = '-' then c else '_')).take 50⟩

/-- Shape test for a timestamp in YYYYMMDD-HHMMSS form: fifteen characters,
eight digits, a hyphen, six digits. -/
def tsFormB (s : String) : Bool :=
  (s.data.length = 15) && (s.data.take 8).all Char.isDigit &&
    ((s.data.drop 8).take 1 = ['-']) && (s.data.drop 9).all Char.isDigit

/-- A string free of path separator characters (slash and backslash). -/
def pathSepFree (s : String) : Bool :=
  s.data.all (fun c => c != '/' && c != '\\')

/-- A stored object: its bytes and its content type. The storage client
reports content_type as None or a string; main.py also treats the empty
string as missing through Python truthiness. -/
structure Blob where
  bytes : List Nat
  contentType : Option String
deriving DecidableEq

/-- Responses of the GET /download/<path> handler: the not-found branch or
a full-content response with a status, the body bytes, a mimetype and the
attachment disposition filename. -/
inductive DlResponse where
  | notFound (status : Nat) (msg : String)
  | content (status : Nat) (bytes : List Nat) (mimetype : String) (dispositionName : String)
deriving DecidableEq

/-- Model of os.path.basename: everything after the last slash. -/
def basenameL (l : List Char) : List Char :=
  (l.reverse.takeWhile (fun c => c != '/')).reverse

/-- String form of basenameL. -/
def basenameS (s : String) : String := ⟨basenameL s.data⟩

/-- The GET /download/<path> handler of main.py over an object store modelled
as a partial map from paths to blobs: existence check first (404 when
absent), then the full bytes with the stored content type or the generic
binary fallback when the stored type is falsy, plus an attachment
disposition naming the base file name. -/
def download_file (store : String → Option Blob) (path : String) : DlResponse :=
  match store path with
  | none => DlResponse.notFound 404 ("File not found")
  | some b =>
    DlResponse.content 200 b.bytes
      (match b.contentType with
       | some c => if c = "" then "application/octet-stream" else c
       | none => "application/octet-stream")
      (basenameS path)

/-- A concrete stored blob. -/
def blob0 : Blob := { bytes := [104, 105], contentType := some ("text/plain") }

/-- A concrete one-object store. -/
def store0 : String → Option Blob := fun p => if p = "j/result.txt" then some blob0 else none

/-- Lexicographic strict comparison of character lists, matching the list
order underlying the string order (and the comparison Python applies to
str values, code point by code point). Structural, so that the model
evaluates on concrete buckets. -/
def charListLt : List Char → List Char → Bool
  | [], [] => false
  | [], _ :: _ => true
  | _ :: _, [] => false
  | a :: as, b :: bs => if a < b then true else if b < a then false else charListLt as bs

/-- Strict lexicographic comparison of strings via their character data. -/
def strLtB (a b : String) : Bool := charListLt a.data b.data

/-- Insert an entry into a list sorted by name descending, keeping input
order among equal names (stability of the Python sort). -/
def ordInsertDesc (x : String × String) : List (String × String) → List (String × String)
  | [] => [x]
  | y :: ys => if strLtB x.1 y.1 then y :: ordInsertDesc x ys else x :: y :: ys

/-- Model of transcriptions_data.sort(key=name, reverse=True): a stable
sort by name in descending order. The handler produces pairwise distinct
names (one entry per prefix), so any correct descending sort yields the
same list the Python stable sort does. -/
def sortByNameDesc : List (String × String) → List (String × String)
  | [] => []
  | x :: xs => ordInsertDesc x (sortByNameDesc xs)

/-- First-level prefix of an object name under the slash delimiter: the
part up to and including the first slash, or none when the name holds no
slash. These are the prefixes a delimiter listing reports. -/
def firstLevelDirL : List Char → Option (List Char)
  | [] => none
  | c :: rest => if c = '/' then some (['/']) else (firstLevelDirL rest).map (fun t => c :: t)

/-- String form of firstLevelDirL. -/
def firstLevelDir (s : String) : Option String := (firstLevelDirL s.data).map (fun l => ⟨l⟩)

/-- The distinct first-level prefixes of a bucket, as collected by
iterating page.prefixes of the delimiter listing in main.py. -/
def pagePrefixes (bucket : List String) : List String :=
  (bucket.filterMap firstLevelDir).dedup

/-- Whether pre is a prefix of s, via character data (structural, so the
model evaluates on concrete buckets). -/
def strStartsWith (pre s : String) : Bool := List.isPrefixOf pre.data s.data

/-- Whether s ends with suf, via character data: Python s.endswith(suf). -/
def strEndsWith (s suf : String) : Bool := List.isSuffixOf suf.data s.data

/-- The first object in listing order under the given prefix whose name
ends in .txt: models the generator scan next((b for b in blobs if
b.name.endswith(".txt")), None) over list_blobs(prefix=prefix). -/
def firstTxtUnder (bucket : List String) (pre : String) : Option String :=
  (bucket.filter (fun n => strStartsWith pre n)).find? (fun n => strEndsWith n (".txt"))

/-- Model of url_for(download_file, path=name, _external=True), kept as the
route path with the object name. -/
def downloadUrlFor (objName : String) : String := "/download/" ++ objName

/-- Model of Python slicing s[:-1], used as folder_name = prefix[:-1]. -/
def dropLastS (s : String) : String := ⟨s.data.dropLast⟩

/-- The listing entry contributed by one first-level prefix: the folder
name with the download link of its first text object, or nothing when the
folder holds no text object. -/
def entryFor (bucket : List String) (pre : String) : Option (String × String) :=
  match firstTxtUnder bucket pre with
  | some t => some (dropLastS pre, downloadUrlFor t)
  | none => none

/-- The GET /transcriptions handler of main.py over a bucket modelled as
its list of object names in listing order: one entry per first-level
folder holding a text result, sorted by name descending. -/
def list_transcriptions (bucket : List String) : List (String × String) :=
  sortByNameDesc ((pagePrefixes bucket).filterMap (entryFor bucket))

/-- A concrete bucket: one folder without a text result, one with. -/
def bucket0 : List String :=
  ["a_20240101-000000/audio.mp3", "b_20240102-000000/result.txt"]

/-- An environment in which every external call succeeds. -/
def okEnv : CloudEnv :=
  { uploadRes := Except.ok (), getMetaRes := Except.ok ("fp0"),
    setMetaRes := Except.ok (), startRes := Except.ok () }

/-- An environment in which the metadata fetch raises. -/
def failGetEnv : CloudEnv :=
  { uploadRes := Except.ok (), getMetaRes := Except.error ("boom"),
    setMetaRes := Except.ok (), startRes := Except.ok () }

/-- A concrete submission instant. -/
def dt0 : Datetime := { year := 2026, month := 1, day := 2, hour := 3, minute := 4, second := 5 }

/-- A small allowed upload. -/
def mp3File : File := { filename := "clip.mp3", size := 1000, contentType := "audio/mpeg" }

/-- An upload with a disallowed extension. -/
def exeFile : File := { filename := "virus.exe", size := 10, contentType := "application/x-msdownload" }

/-- An allowed upload strictly larger than 16 MiB. -/
def bigFile : File := { filename := "audio.mp3", size := 16777217, contentType := "audio/mpeg" }

end TranscribeVM

namespace TranscribeVM

/-- Claim C9: a POST /transcribe request that supplies neither a URL nor a
file is answered with a 400 client error and performs no object-store
upload and no VM API call. -/
theorem transcribe_no_input_rejected (now : Datetime) (env : CloudEnv) (hfTok : String)
    (url : Option String) (file : Option File)
    (hu : url = none) (hf : file = none) :
    transcribe url file now env hfTok =
      { effects := [], response := Except.ok (400, "No URL or file provided") } := by
  subst hu hf
  simp [transcribe, urlTruthy, fileTruthy]

/-- Witness for C9 at a concrete request. -/
theorem transcribe_no_input_rejected_witness :
    transcribe none none dt0 okEnv ("tok") =
      { effects := [], response := Except.ok (400, "No URL or file provided") } :=
  transcribe_no_input_rejected dt0 okEnv ("tok") none none rfl rfl

/-- Claim C8: a POST /transcribe request whose uploaded file is not in the
extension allow-list is answered with a 400 client error and performs no
object-store upload and no VM API call (the check precedes the upload and
the try block). -/
theorem transcribe_bad_extension_rejected (url : Option String) (f : File) (now : Datetime)
    (env : CloudEnv) (hfTok : String)
    (hname : f.filename ≠ "") (hext : allowed_file f.filename = false) :
    transcribe url (some f) now env hfTok =
      { effects := [], response := Except.ok (400, "Invalid file type") } := by
  have hft : fileTruthy (some f) = true := by
    simp [fileTruthy, hname]
  simp [transcribe, hft, hext]

/-- Witness for C8: an exe upload is rejected with no side effects. -/
theorem transcribe_bad_extension_rejected_witness :
    transcribe none (some exeFile) dt0 okEnv ("tok") =
      { effects := [], response := Except.ok (400, "Invalid file type") } :=
  transcribe_bad_extension_rejected none exeFile dt0 okEnv ("tok")
    (by decide) (by decide)

/-- Claim C2 counterexample: the server-side handler accepts an upload
strictly larger than 16 MiB (16777217 bytes): the request succeeds with
status 200 and the file is uploaded, so the claim that such a file is not
accepted as a valid input is false of the code (the 16 MiB check exists
only in the embedded browser page script, not in the POST /transcribe
handler). -/
theorem transcribe_no_size_limit_cex :
    bigFile.size > 16 * 1024 * 1024 ∧
    (transcribe none (some bigFile) dt0 okEnv ("tok")).response =
      Except.ok (200, "Transcription job " ++ SQ ++ "audio_20260102-030405" ++ SQ ++
        " initiated. The VM is spinning up.") ∧
    Effect.upload ("audio_20260102-030405/audio.mp3") ("audio/mpeg")
      ∈ (transcribe none (some bigFile) dt0 okEnv ("tok")).effects :=
  ⟨by decide, by decide, by decide⟩

/-- Claim C2 amended: the POST /transcribe handler performs no size check
at all; its entire observable behaviour (response and side-effect trace)
is independent of the uploaded file size. The 16 MiB limit is enforced
only by the embedded client-side page script. -/
theorem transcribe_size_independent (url : Option String) (name ct : String) (s1 s2 : Nat)
    (now : Datetime) (env : CloudEnv) (hfTok : String) :
    transcribe url (some { filename := name, size := s1, contentType := ct }) now env hfTok =
    transcribe url (some { filename := name, size := s2, contentType := ct }) now env hfTok :=
  rfl

/-- Claim C1: for every successful submission (response status 200), the
handler makes exactly one metadata-set call and exactly one start call,
the items written carry gcs-input-path as their first key, and that value
is the uploaded object URI gs://bucket/job-id/sanitized-filename when a
file was given, or the raw submitted URL when only a URL was given. -/
theorem transcribe_success_one_set_one_start
    (url : Option String) (file : Option File) (now : Datetime) (env : CloudEnv)
    (hfTok m : String)
    (h : (transcribe url file now env hfTok).response = Except.ok (200, m)) :
    countSetMeta (transcribe url file now env hfTok).effects = 1 ∧
    countStart (transcribe url file now env hfTok).effects = 1 ∧
    (∃ fp, Effect.setMeta fp
        (metaItems (input_source_for_vm url file now) (transcriptionId url file now) hfTok)
        ∈ (transcribe url file now env hfTok).effects) ∧
    List.lookup ("gcs-input-path")
      (metaItems (input_source_for_vm url file now) (transcriptionId url file now) hfTok)
      = some (input_source_for_vm url file now) ∧
    ((fileTruthy file = true ∧ input_source_for_vm url file now =
        "gs://" ++ GCS_BUCKET_NAME ++ "/" ++ transcriptionId url file now ++ "/" ++
          secure_filename (file.getD defaultFile).filename) ∨
     (fileTruthy file = false ∧ urlTruthy url = true ∧
        input_source_for_vm url file now = url.getD "")) := by
  cases hft : fileTruthy file with
  | true =>
    cases hal : allowed_file (file.getD defaultFile).filename with
    | false => simp [transcribe, hft, hal] at h
    | true =>
      cases hup : env.uploadRes with
      | error e => simp [transcribe, hft, hal, hup] at h
      | ok u =>
        cases hg : env.getMetaRes with
        | error e => simp [transcribe, tryBlock, hft, hal, hup, hg] at h
        | ok fp =>
          cases hs : env.setMetaRes with
          | error e => simp [transcribe, tryBlock, hft, hal, hup, hg, hs] at h
          | ok v =>
            cases hst : env.startRes with
            | error e => simp [transcribe, tryBlock, hft, hal, hup, hg, hs, hst] at h
            | ok w =>
              refine ⟨?_, ?_, ⟨fp, ?_⟩, rfl, Or.inl ⟨rfl, ?_⟩⟩
              · simp [transcribe, tryBlock, hft, hal, hup, hg, hs, hst,
                  countSetMeta, isSetMeta, List.countP_cons]
              · simp [transcribe, tryBlock, hft, hal, hup, hg, hs, hst,
                  countStart, isStart, List.countP_cons]
              · simp [transcribe, tryBlock, hft, hal, hup, hg, hs, hst]
              · simp [input_source_for_vm, gcsFilePath, hft, String.append_assoc]
  | false =>
    cases hut : urlTruthy url with
    | false => simp [transcribe, hft, hut] at h
    | true =>
      cases hg : env.getMetaRes with
      | error e => simp [transcribe, tryBlock, hft, hut, hg] at h
      | ok fp =>
        cases hs : env.setMetaRes with
        | error e => simp [transcribe, tryBlock, hft, hut, hg, hs] at h
        | ok v =>
          cases hst : env.startRes with
          | error e => simp [transcribe, tryBlock, hft, hut, hg, hs, hst] at h
          | ok w =>
            refine ⟨?_, ?_, ⟨fp, ?_⟩, rfl, Or.inr ⟨rfl, rfl, ?_⟩⟩
            · simp [transcribe, tryBlock, hft, hut, hg, hs, hst,
                countSetMeta, isSetMeta, List.countP_cons]
            · simp [transcribe, tryBlock, hft, hut, hg, hs, hst,
                countStart, isStart, List.countP_cons]
            · simp [transcribe, tryBlock, hft, hut, hg, hs, hst]
            · simp [input_source_for_vm, hft, hut]

/-- Witness for C1 at a concrete successful file submission. -/
theorem transcribe_success_one_set_one_start_witness :
    countSetMeta (transcribe none (some mp3File) dt0 okEnv ("tok")).effects = 1 ∧
    countStart (transcribe none (some mp3File) dt0 okEnv ("tok")).effects = 1 ∧
    (∃ fp, Effect.setMeta fp
        (metaItems (input_source_for_vm none (some mp3File) dt0)
          (transcriptionId none (some mp3File) dt0) ("tok"))
        ∈ (transcribe none (some mp3File) dt0 okEnv ("tok")).effects) ∧
    List.lookup ("gcs-input-path")
      (metaItems (input_source_for_vm none (some mp3File) dt0)
        (transcriptionId none (some mp3File) dt0) ("tok"))
      = some (input_source_for_vm none (some mp3File) dt0) ∧
    ((fileTruthy (some mp3File) = true ∧ input_source_for_vm none (some mp3File) dt0 =
        "gs://" ++ GCS_BUCKET_NAME ++ "/" ++ transcriptionId none (some mp3File) dt0 ++ "/" ++
          secure_filename ((some mp3File).getD defaultFile).filename) ∨
     (fileTruthy (some mp3File) = false ∧ urlTruthy (none : Option String) = true ∧
        input_source_for_vm none (some mp3File) dt0 = (none : Option String).getD "")) :=
  transcribe_success_one_set_one_start none (some mp3File) dt0 okEnv ("tok")
    ("Transcription job " ++ SQ ++ "clip_20260102-030405" ++ SQ ++
      " initiated. The VM is spinning up.") (by decide)

/-- Claim C6: when the metadata fetch, the metadata overwrite, or the start
command raises an exception on an otherwise valid submission, the handler
answers 500 with a body carrying the exception text, and a file uploaded
in the preceding step is still present in the trace: no compensating
delete exists (the Effect type has no delete operation at all). -/
theorem transcribe_error_keeps_upload
    (url : Option String) (file : Option File) (now : Datetime) (env : CloudEnv)
    (hfTok e : String)
    (hvalid : (fileTruthy file = true ∧ allowed_file (file.getD defaultFile).filename = true ∧
                env.uploadRes = Except.ok ()) ∨
              (fileTruthy file = false ∧ urlTruthy url = true))
    (herr : env.getMetaRes = Except.error e ∨
            (∃ fp, env.getMetaRes = Except.ok fp ∧ env.setMetaRes = Except.error e) ∨
            (∃ fp, env.getMetaRes = Except.ok fp ∧ env.setMetaRes = Except.ok () ∧
              env.startRes = Except.error e)) :
    (transcribe url file now env hfTok).response =
      Except.ok (500, "Failed to initiate transcription: " ++ e) ∧
    (fileTruthy file = true →
      Effect.upload (gcsFilePath url file now) (file.getD defaultFile).contentType
        ∈ (transcribe url file now env hfTok).effects) := by
  rcases hvalid with ⟨hft, hal, hup⟩ | ⟨hft, hut⟩
  · rcases herr with hg | ⟨fp, hg, hs⟩ | ⟨fp, hg, hs, hst⟩
    · refine ⟨?_, fun _ => ?_⟩ <;> simp [transcribe, tryBlock, hft, hal, hup, hg]
    · refine ⟨?_, fun _ => ?_⟩ <;> simp [transcribe, tryBlock, hft, hal, hup, hg, hs]
    · refine ⟨?_, fun _ => ?_⟩ <;> simp [transcribe, tryBlock, hft, hal, hup, hg, hs, hst]
  · rcases herr with hg | ⟨fp, hg, hs⟩ | ⟨fp, hg, hs, hst⟩
    · refine ⟨?_, fun hcon => ?_⟩
      · simp [transcribe, tryBlock, hft, hut, hg]
      · simp [hft] at hcon
    · refine ⟨?_, fun hcon => ?_⟩
      · simp [transcribe, tryBlock, hft, hut, hg, hs]
      · simp [hft] at hcon
    · refine ⟨?_, fun hcon => ?_⟩
      · simp [transcribe, tryBlock, hft, hut, hg, hs, hst]
      · simp [hft] at hcon

/-- Witness for C6: the metadata fetch raises on a valid file submission;
the handler answers 500 with the exception text and the upload stays in
the trace. -/
theorem transcribe_error_keeps_upload_witness :
    (transcribe none (some mp3File) dt0 failGetEnv ("tok")).response =
      Except.ok (500, "Failed to initiate transcription: " ++ "boom") ∧
    (fileTruthy (some mp3File) = true →
      Effect.upload (gcsFilePath none (some mp3File) dt0) ((some mp3File).getD defaultFile).contentType
        ∈ (transcribe none (some mp3File) dt0 failGetEnv ("tok")).effects) :=
  transcribe_error_keeps_upload none (some mp3File) dt0 failGetEnv ("tok") ("boom")
    (Or.inl ⟨by decide, by decide, by decide⟩) (Or.inl (by decide))

/-- Claim C10: when a request carries both a non-empty URL and a truthy
allowed file, the file wins: the whole handler result is the one the file
alone would produce (the URL is ignored), the base name comes from the
sanitized filename, the file is uploaded, and gcs-input-path is set to the
uploaded object URI. -/
theorem transcribe_file_precedence
    (u : String) (f : File) (now : Datetime) (env : CloudEnv) (hfTok fp : String)
    (hu : u ≠ "") (hname : f.filename ≠ "")
    (hal : allowed_file f.filename = true)
    (hup : env.uploadRes = Except.ok ()) (hg : env.getMetaRes = Except.ok fp)
    (hs : env.setMetaRes = Except.ok ()) (hst : env.startRes = Except.ok ()) :
    transcribe (some u) (some f) now env hfTok = transcribe none (some f) now env hfTok ∧
    sourceBaseName (some u) (some f) = stripExtS (secure_filename f.filename) ∧
    Effect.upload (gcsFilePath (some u) (some f) now) f.contentType
      ∈ (transcribe (some u) (some f) now env hfTok).effects ∧
    Effect.setMeta fp
      (metaItems ("gs://" ++ GCS_BUCKET_NAME ++ "/" ++ gcsFilePath (some u) (some f) now)
        (transcriptionId (some u) (some f) now) hfTok)
      ∈ (transcribe (some u) (some f) now env hfTok).effects := by
  have hft : fileTruthy (some f) = true := by simp [fileTruthy, hname]
  refine ⟨?_, ?_, ?_, ?_⟩
  · simp [transcribe, tryBlock, sourceBaseName, transcriptionId, gcsFilePath,
      input_source_for_vm, hft, hal, hup, hg, hs, hst]
  · simp [sourceBaseName, hft]
  · simp [transcribe, tryBlock, hft, hal, hup, hg, hs, hst]
  · simp [transcribe, tryBlock, hft, hal, hup, hg, hs, hst, input_source_for_vm]

/-- Witness for C10 at a concrete request carrying both inputs. -/
theorem transcribe_file_precedence_witness :
    transcribe (some ("https://x.com/v")) (some mp3File) dt0 okEnv ("tok") =
      transcribe none (some mp3File) dt0 okEnv ("tok") ∧
    sourceBaseName (some ("https://x.com/v")) (some mp3File) =
      stripExtS (secure_filename mp3File.filename) ∧
    Effect.upload (gcsFilePath (some ("https://x.com/v")) (some mp3File) dt0) mp3File.contentType
      ∈ (transcribe (some ("https://x.com/v")) (some mp3File) dt0 okEnv ("tok")).effects ∧
    Effect.setMeta ("fp0")
      (metaItems ("gs://" ++ GCS_BUCKET_NAME ++ "/" ++
          gcsFilePath (some ("https://x.com/v")) (some mp3File) dt0)
        (transcriptionId (some ("https://x.com/v")) (some mp3File) dt0) ("tok"))
      ∈ (transcribe (some ("https://x.com/v")) (some mp3File) dt0 okEnv ("tok")).effects :=
  transcribe_file_precedence ("https://x.com/v") mp3File dt0 okEnv ("tok") ("fp0")
    (by decide) (by decide) (by decide) (by decide) (by decide) (by decide) (by decide)

/-- Helper for C3: the source model of re.sub(r"https?://", "", url) agrees
with the explicit remove-every-occurrence formulation. -/
theorem stripHttpL_eq_removeHttpOcc (l : List Char) : stripHttpL l = removeHttpOcc l := by
  induction l using stripHttpL.induct with
  | case1 rest ih =>
    rw [removeHttpOcc.eq_def]
    simp [stripHttpL, List.isPrefixOf, ih]
  | case2 rest ih =>
    rw [removeHttpOcc.eq_def]
    simp [stripHttpL, List.isPrefixOf, ih]
  | case3 c rest h1 h2 ih =>
    have hp1 : List.isPrefixOf (['h', 't', 't', 'p', 's', ':', '/', '/']) (c :: rest) = false := by
      by_contra hcon
      rw [Bool.not_eq_false, List.isPrefixOf_iff_prefix] at hcon
      obtain ⟨t, ht⟩ := hcon
      simp only [List.cons_append, List.nil_append, List.cons.injEq] at ht
      exact h1 t ht.1.symm ht.2.symm
    have hp2 : List.isPrefixOf (['h', 't', 't', 'p', ':', '/', '/']) (c :: rest) = false := by
      by_contra hcon
      rw [Bool.not_eq_false, List.isPrefixOf_iff_prefix] at hcon
      obtain ⟨t, ht⟩ := hcon
      simp only [List.cons_append, List.nil_append, List.cons.injEq] at ht
      exact h2 t ht.1.symm ht.2.symm
    rw [stripHttpL.eq_3 c rest h1 h2, removeHttpOcc.eq_def]
    simp [hp1, hp2, ih]
  | case4 =>
    rw [removeHttpOcc.eq_def]
    simp [stripHttpL]

/-- Claim C3 counterexample: on the URL ftp://a.b the code keeps the dot
and the unmatched ftp scheme (giving ftp___a.b) while the claim wording
predicts a_b, so the claim as stated is false of the code. -/
theorem urlBaseName_claim_cex :
    urlBaseName ("ftp://a.b") ≠ claimUrlBaseName ("ftp://a.b") := by decide

/-- Claim C3 amended: for every URL-only submission, the derived base name
equals the URL with every occurrence of http:// or https:// removed, every
character other than an ASCII letter, digit, underscore, dot or hyphen
replaced by an underscore, and the result truncated to at most 50
characters. -/
theorem urlBaseName_eq_amended (u : String) : urlBaseName u = amendedUrlBaseName u := by
  unfold urlBaseName amendedUrlBaseName
  rw [stripHttpL_eq_removeHttpOcc]
  rfl

/-- Helper: the decimal digit characters, exhaustively below 10. -/
theorem digitChar_lt10 :
    ∀ m, m < 10 → ((Nat.digitChar m).isDigit = true ∧
      Nat.digitChar m ≠ '/' ∧ Nat.digitChar m ≠ '\\') := by decide

/-- Helper: rendering a value mod 10 always yields a digit character. -/
theorem digitChar_mod_isDigit (n : Nat) : (Nat.digitChar (n % 10)).isDigit = true :=
  (digitChar_lt10 (n % 10) (Nat.mod_lt n (by norm_num))).1

/-- Helper: a rendered digit is not a slash. -/
theorem digitChar_mod_ne_slash (n : Nat) : Nat.digitChar (n % 10) ≠ '/' :=
  (digitChar_lt10 (n % 10) (Nat.mod_lt n (by norm_num))).2.1

/-- Helper: a rendered digit is not a backslash. -/
theorem digitChar_mod_ne_bslash (n : Nat) : Nat.digitChar (n % 10) ≠ '\\' :=
  (digitChar_lt10 (n % 10) (Nat.mod_lt n (by norm_num))).2.2

/-- Helper: the rendered timestamp always has the YYYYMMDD-HHMMSS shape. -/
theorem tsFormB_strftime (t : Datetime) : tsFormB (strftimeYmdHMS t) = true := by
  simp [tsFormB, strftimeYmdHMS, pad4, pad2, digitChar_mod_isDigit]

/-- Helper: no character of the rendered timestamp is a path separator. -/
theorem strftime_all_not_sep (t : Datetime) :
    (strftimeYmdHMS t).data.all (fun c => c != '/' && c != '\\') = true := by
  simp [strftimeYmdHMS, pad4, pad2, digitChar_mod_ne_slash, digitChar_mod_ne_bslash]

/-- Helper: every character surviving secure_filename lies in the word
class A-Za-z0-9 underscore dot hyphen. -/
theorem mem_secureFilenameL {c : Char} {l : List Char}
    (h : c ∈ secureFilenameL l) : asciiWordChar c = true := by
  unfold secureFilenameL pyStrip at h
  rw [List.mem_reverse] at h
  have h2 := (List.dropWhile_sublist _).subset h
  rw [List.mem_reverse] at h2
  have h3 := (List.dropWhile_sublist _).subset h2
  exact List.of_mem_filter h3

/-- Helper: stripping the extension keeps only characters of the input. -/
theorem mem_rsplitHeadL {c : Char} {l : List Char}
    (h : c ∈ rsplitHeadL l) : c ∈ l := by
  unfold rsplitHeadL at h
  split at h
  · rw [List.mem_reverse] at h
    have h2 := (List.dropWhile_sublist _).subset (List.mem_of_mem_tail h)
    rw [List.mem_reverse] at h2
    exact h2
  · exact h

/-- Helper: word-class characters are not path separators. -/
theorem asciiWordChar_no_sep {c : Char} (h : asciiWordChar c = true) :
    c ≠ '/' ∧ c ≠ '\\' := by
  constructor <;> (rintro rfl; exact absurd h (by decide))

/-- Claim C4: for every accepted file upload, the derived job identifier is
the sanitized base name (the sanitized filename with its extension
stripped) joined by an underscore to a timestamp of YYYYMMDD-HHMMSS shape,
and contains no path separator characters. The range hypotheses restrict
the statement to instants datetime.now() can produce, where the strftime
model is exact. -/
theorem transcribe_id_form (url : Option String) (f : File) (now : Datetime)
    (hname : f.filename ≠ "") (hext : allowed_file f.filename = true)
    (hy1 : 1000 ≤ now.year) (hy2 : now.year ≤ 9999)
    (hmo1 : 1 ≤ now.month) (hmo2 : now.month ≤ 12)
    (hd1 : 1 ≤ now.day) (hd2 : now.day ≤ 31)
    (hh : now.hour ≤ 23) (hmi : now.minute ≤ 59) (hsec : now.second ≤ 59) :
    transcriptionId url (some f) now =
      stripExtS (secure_filename f.filename) ++ "_" ++ strftimeYmdHMS now ∧
    tsFormB (strftimeYmdHMS now) = true ∧
    pathSepFree (transcriptionId url (some f) now) = true := by
  have hft : fileTruthy (some f) = true := by simp [fileTruthy, hname]
  have hid : transcriptionId url (some f) now =
      stripExtS (secure_filename f.filename) ++ "_" ++ strftimeYmdHMS now := by
    simp [transcriptionId, sourceBaseName, hft]
  refine ⟨hid, tsFormB_strftime now, ?_⟩
  unfold pathSepFree
  rw [hid, String.data_append, String.data_append]
  simp only [List.all_append, Bool.and_eq_true]
  refine ⟨⟨?_, by decide⟩, strftime_all_not_sep now⟩
  rw [List.all_eq_true]
  intro c hc
  have hmem : c ∈ rsplitHeadL (secureFilenameL f.filename.data) := hc
  have hw := mem_secureFilenameL (mem_rsplitHeadL hmem)
  have hns := asciiWordChar_no_sep hw
  simp [Bool.and_eq_true, bne_iff_ne]
  exact hns

/-- Witness for C4 at a concrete accepted upload. -/
theorem transcribe_id_form_witness :
    transcriptionId none (some mp3File) dt0 =
      stripExtS (secure_filename mp3File.filename) ++ "_" ++ strftimeYmdHMS dt0 ∧
    tsFormB (strftimeYmdHMS dt0) = true ∧
    pathSepFree (transcriptionId none (some mp3File) dt0) = true :=
  transcribe_id_form none mp3File dt0 (by decide) (by decide)
    (by norm_num [dt0]) (by norm_num [dt0]) (by norm_num [dt0]) (by norm_num [dt0])
    (by norm_num [dt0]) (by norm_num [dt0]) (by norm_num [dt0]) (by norm_num [dt0])
    (by norm_num [dt0])

/-- Claim C7: downloading an absent path returns the 404 not-found
response; downloading an existing path returns a 200 response whose body
is byte-identical to the stored object, carrying the stored content type
when one is present (the generic binary fallback when none, or an empty
one, is stored) and the base file name as attachment name. -/
theorem download_file_spec (store : String → Option Blob) (path : String) :
    (store path = none →
      download_file store path = DlResponse.notFound 404 ("File not found")) ∧
    (∀ b, store path = some b →
      ∃ m, download_file store path = DlResponse.content 200 b.bytes m (basenameS path) ∧
        (∀ c, b.contentType = some c → c ≠ "" → m = c) ∧
        ((b.contentType = none ∨ b.contentType = some ("")) →
          m = "application/octet-stream")) := by
  constructor
  · intro h
    simp [download_file, h]
  · intro b h
    rcases hct : b.contentType with _ | c
    · refine ⟨"application/octet-stream", by simp [download_file, h, hct], ?_, fun _ => rfl⟩
      intro c2 hc2
      simp at hc2
    · by_cases hc : c = ""
      · subst hc
        refine ⟨"application/octet-stream", by simp [download_file, h, hct], ?_, fun _ => rfl⟩
        intro c2 hc2 hne
        rw [Option.some.injEq] at hc2
        exact absurd hc2.symm hne
      · refine ⟨c, by simp [download_file, h, hct, hc], ?_, ?_⟩
        · intro c2 hc2 _
          rw [Option.some.injEq] at hc2
          exact hc2
        · intro habs
          rcases habs with h1 | h1
          · simp at h1
          · rw [Option.some.injEq] at h1
            exact absurd h1 hc

/-- Witness for C7 at a concrete store and path. -/
theorem download_file_spec_witness :
    store0 ("j/result.txt") = some blob0 ∧
    (∃ m, download_file store0 ("j/result.txt") =
        DlResponse.content 200 blob0.bytes m (basenameS ("j/result.txt")) ∧
      (∀ c, blob0.contentType = some c → c ≠ "" → m = c) ∧
      ((blob0.contentType = none ∨ blob0.contentType = some ("")) →
        m = "application/octet-stream")) :=
  ⟨by decide, (download_file_spec store0 ("j/result.txt")).2 blob0 (by decide)⟩

/-- Helper: the Boolean list comparison agrees with the lexicographic list
order. -/
theorem charListLt_iff (a b : List Char) : charListLt a b = true ↔ a < b := by
  induction a generalizing b with
  | nil =>
    cases b with
    | nil =>
      constructor
      · intro h
        exact absurd h (by simp [charListLt])
      · intro h
        cases h
    | cons b bs =>
      simp only [charListLt, true_iff]
      exact List.nil_lt_cons b bs
  | cons a as ih =>
    cases b with
    | nil =>
      constructor
      · intro h
        exact absurd h (by simp [charListLt])
      · intro h
        cases h
    | cons b bs =>
      by_cases hab : a < b
      · simp only [charListLt, if_pos hab, true_iff]
        exact List.Lex.rel hab
      · by_cases hba : b < a
        · constructor
          · intro h
            rw [charListLt, if_neg hab, if_pos hba] at h
            cases h
          · intro h
            cases h with
            | rel h2 => exact absurd h2 hab
            | cons h3 => exact absurd hba (lt_irrefl a)
        · have heq : a = b := le_antisymm (le_of_not_lt hba) (le_of_not_lt hab)
          subst heq
          constructor
          · intro h
            rw [charListLt, if_neg hab, if_neg hba] at h
            exact List.Lex.cons ((ih bs).mp h)
          · intro h
            rw [charListLt, if_neg hab, if_neg hba]
            cases h with
            | rel h2 => exact absurd h2 hab
            | cons h3 => exact (ih bs).mpr h3

/-- Helper: the Boolean string comparison agrees with the string order. -/
theorem strLtB_iff {a b : String} : strLtB a b = true ↔ a < b := by
  rw [String.lt_iff_toList_lt]
  exact charListLt_iff a.data b.data

/-- Helper: inserting permutes. -/
theorem perm_ordInsertDesc (x : String × String) (l : List (String × String)) :
    (ordInsertDesc x l).Perm (x :: l) := by
  induction l with
  | nil => exact List.Perm.refl _
  | cons y ys ih =>
    rw [ordInsertDesc]
    split
    · exact (List.Perm.cons y ih).trans (List.Perm.swap x y ys)
    · exact List.Perm.refl _

/-- Helper: the descending sort permutes its input. -/
theorem perm_sortByNameDesc (l : List (String × String)) :
    (sortByNameDesc l).Perm l := by
  induction l with
  | nil => exact List.Perm.refl _
  | cons x xs ih =>
    exact (perm_ordInsertDesc x (sortByNameDesc xs)).trans (List.Perm.cons x ih)

/-- Helper: inserting preserves descending sortedness by name. -/
theorem sorted_ordInsertDesc (x : String × String) (l : List (String × String))
    (h : l.Pairwise (fun p q => q.1 ≤ p.1)) :
    (ordInsertDesc x l).Pairwise (fun p q => q.1 ≤ p.1) := by
  induction l with
  | nil => simp [ordInsertDesc]
  | cons y ys ih =>
    rw [List.pairwise_cons] at h
    rw [ordInsertDesc]
    by_cases hc : strLtB x.1 y.1 = true
    · rw [if_pos hc, List.pairwise_cons]
      constructor
      · intro z hz
        rcases List.mem_cons.mp ((perm_ordInsertDesc x ys).mem_iff.mp hz) with rfl | hzys
        · exact le_of_lt (strLtB_iff.mp hc)
        · exact h.1 z hzys
      · exact ih h.2
    · rw [if_neg hc, List.pairwise_cons]
      constructor
      · intro z hz
        rcases List.mem_cons.mp hz with rfl | hzys
        · exact le_of_not_lt (fun hlt => hc (strLtB_iff.mpr hlt))
        · exact le_trans (h.1 z hzys) (le_of_not_lt (fun hlt => hc (strLtB_iff.mpr hlt)))
      · exact List.pairwise_cons.mpr ⟨h.1, h.2⟩

/-- Helper: the descending sort is sorted by name descending. -/
theorem sorted_sortByNameDesc (l : List (String × String)) :
    (sortByNameDesc l).Pairwise (fun p q => q.1 ≤ p.1) := by
  induction l with
  | nil => simp [sortByNameDesc]
  | cons x xs ih => exact sorted_ordInsertDesc x (sortByNameDesc xs) ih

/-- Helper: a reported first-level prefix always ends in the delimiter. -/
theorem firstLevelDirL_shape : ∀ {l p : List Char},
    firstLevelDirL l = some p → ∃ q, p = q ++ ['/'] := by
  intro l
  induction l with
  | nil =>
    intro p h
    simp [firstLevelDirL] at h
  | cons c rest ih =>
    intro p h
    by_cases hc : c = '/'
    · rw [firstLevelDirL, if_pos hc] at h
      rw [Option.some.injEq] at h
      exact ⟨[], h.symm⟩
    · rw [firstLevelDirL, if_neg hc] at h
      rcases hmap : firstLevelDirL rest with _ | l2
      · rw [hmap] at h
        cases h
      · rw [hmap] at h
        rw [Option.map_some', Option.some.injEq] at h
        obtain ⟨q, hq⟩ := ih hmap
        exact ⟨c :: q, by rw [← h, hq]; rfl⟩

/-- Helper: every member of pagePrefixes ends in the delimiter. -/
theorem pagePrefixes_shape {bucket : List String} {pre : String}
    (h : pre ∈ pagePrefixes bucket) : ∃ q, pre.data = q ++ ['/'] := by
  rw [pagePrefixes, List.mem_dedup, List.mem_filterMap] at h
  obtain ⟨o, ho, hfl⟩ := h
  rw [firstLevelDir] at hfl
  rcases hmap : firstLevelDirL o.data with _ | l
  · rw [hmap] at hfl
    cases hfl
  · rw [hmap, Option.map_some', Option.some.injEq] at hfl
    obtain ⟨q, hq⟩ := firstLevelDirL_shape hmap
    have hd : pre.data = l := by rw [← hfl]
    exact ⟨q, by rw [hd, hq]⟩

/-- Helper: a produced entry comes from a folder with a first text object. -/
theorem entryFor_eq_some {bucket : List String} {pre : String} {e : String × String}
    (h : entryFor bucket pre = some e) :
    ∃ t, firstTxtUnder bucket pre = some t ∧ e = (dropLastS pre, downloadUrlFor t) := by
  rw [entryFor] at h
  rcases hft : firstTxtUnder bucket pre with _ | t
  · rw [hft] at h
    cases h
  · rw [hft, Option.some.injEq] at h
    exact ⟨t, rfl, h.symm⟩

/-- Helper: distinct slash-terminated prefixes yield distinct folder names. -/
theorem nodup_entry_names (bucket : List String) :
    ∀ (ps : List String), ps.Nodup → (∀ p ∈ ps, ∃ q, p.data = q ++ ['/']) →
    ((ps.filterMap (entryFor bucket)).map Prod.fst).Nodup := by
  intro ps
  induction ps with
  | nil =>
    intro _ _
    simp
  | cons p rest ih =>
    intro hnd hshape
    rw [List.nodup_cons] at hnd
    have hshape2 : ∀ x ∈ rest, ∃ q, x.data = q ++ ['/'] :=
      fun x hx => hshape x (List.mem_cons_of_mem p hx)
    rcases hft : entryFor bucket p with _ | e
    · rw [List.filterMap_cons_none hft]
      exact ih hnd.2 hshape2
    · rw [List.filterMap_cons_some hft, List.map_cons, List.nodup_cons]
      refine ⟨?_, ih hnd.2 hshape2⟩
      intro hmem
      rw [List.mem_map] at hmem
      obtain ⟨e2, hmem2, hfst⟩ := hmem
      rw [List.mem_filterMap] at hmem2
      obtain ⟨p2, hp2rest, hp2⟩ := hmem2
      obtain ⟨t, hft1, he1⟩ := entryFor_eq_some hft
      obtain ⟨t2, hft2, he2⟩ := entryFor_eq_some hp2
      obtain ⟨q1, hq1⟩ := hshape p (List.mem_cons_self p rest)
      obtain ⟨q2, hq2⟩ := hshape p2 (List.mem_cons_of_mem p hp2rest)
      have hnames : dropLastS p2 = dropLastS p := by
        rw [he1, he2] at hfst
        exact hfst
      have hpp : p2 = p := by
        apply String.ext
        have hdl : p2.data.dropLast = p.data.dropLast := congrArg String.data hnames
        rw [hq1, hq2] at hdl
        rw [List.dropLast_concat, List.dropLast_concat] at hdl
        rw [hq1, hq2, hdl]
      exact hnd.1 (hpp ▸ hp2rest)

/-- Claim C5: for every bucket state, the listing is sorted by name in
descending order, holds at most one entry per folder name, an entry
(name, url) exists exactly when name is a first-level folder of some
object and some object under it ends in .txt, in which case url is the
download link of the first such object in listing order (the head of the
find? scan), and every located text object really lies in the bucket under
the prefix with the text suffix. -/
theorem list_transcriptions_spec (bucket : List String) :
    List.Pairwise (fun p q : String × String => q.1 ≤ p.1) (list_transcriptions bucket) ∧
    ((list_transcriptions bucket).map Prod.fst).Nodup ∧
    (∀ name url : String, ((name, url) ∈ list_transcriptions bucket ↔
      (∃ o ∈ bucket, firstLevelDir o = some (name ++ "/")) ∧
      (∃ t, firstTxtUnder bucket (name ++ "/") = some t ∧ url = downloadUrlFor t))) ∧
    (∀ pre t : String, firstTxtUnder bucket pre = some t →
      t ∈ bucket ∧ strStartsWith pre t = true ∧ strEndsWith t (".txt") = true) := by
  refine ⟨sorted_sortByNameDesc _, ?_, ?_, ?_⟩
  · rw [list_transcriptions]
    rw [((perm_sortByNameDesc ((pagePrefixes bucket).filterMap (entryFor bucket))).map
      Prod.fst).nodup_iff]
    refine nodup_entry_names bucket (pagePrefixes bucket) ?_ (fun p hp => pagePrefixes_shape hp)
    rw [pagePrefixes]
    exact List.nodup_dedup _
  · intro name url
    rw [list_transcriptions, (perm_sortByNameDesc _).mem_iff, List.mem_filterMap]
    constructor
    · rintro ⟨pre, hpre, hf⟩
      obtain ⟨t, hft, he⟩ := entryFor_eq_some hf
      rw [Prod.mk.injEq] at he
      obtain ⟨q, hq⟩ := pagePrefixes_shape hpre
      have hname : name.data = q := by
        rw [he.1]
        show pre.data.dropLast = q
        rw [hq, List.dropLast_concat]
      have hpre_eq : name ++ "/" = pre := by
        apply String.ext
        rw [String.data_append, hname, hq]
      constructor
      · rw [hpre_eq]
        rw [pagePrefixes, List.mem_dedup, List.mem_filterMap] at hpre
        exact hpre
      · exact ⟨t, by rw [hpre_eq]; exact hft, he.2⟩
    · rintro ⟨hfolder, t, hft, rfl⟩
      refine ⟨name ++ "/", ?_, ?_⟩
      · rw [pagePrefixes, List.mem_dedup, List.mem_filterMap]
        exact hfolder
      · rw [entryFor, hft]
        have hdl : dropLastS (name ++ "/") = name := by
          apply String.ext
          show ((name ++ "/").data).dropLast = name.data
          rw [String.data_append]
          exact List.dropLast_concat
        rw [hdl]
  · intro pre t h
    rw [firstTxtUnder] at h
    have hp := List.find?_some h
    have hmem := List.mem_of_find?_eq_some h
    rw [List.mem_filter] at hmem
    exact ⟨hmem.1, hmem.2, hp⟩

/-- Witness for C5: the spec example bucket, one folder without a text
result and one with; only the latter is listed, and the whole
specification holds of this bucket. -/
theorem list_transcriptions_spec_witness :
    list_transcriptions bucket0 =
      [("b_20240102-000000", "/download/" ++ "b_20240102-000000/result.txt")] ∧
    (List.Pairwise (fun p q : String × String => q.1 ≤ p.1) (list_transcriptions bucket0) ∧
    ((list_transcriptions bucket0).map Prod.fst).Nodup ∧
    (∀ name url : String, ((name, url) ∈ list_transcriptions bucket0 ↔
      (∃ o ∈ bucket0, firstLevelDir o = some (name ++ "/")) ∧
      (∃ t, firstTxtUnder bucket0 (name ++ "/") = some t ∧ url = downloadUrlFor t))) ∧
    (∀ pre t : String, firstTxtUnder bucket0 pre = some t →
      t ∈ bucket0 ∧ strStartsWith pre t = true ∧ strEndsWith t (".txt") = true)) :=
  ⟨by decide, list_transcriptions_spec bucket0⟩
